import Mathlib

/-!
Verification of the PMA-Weather chat-turn orchestration pipeline.

The repository is a Next.js weather chat assistant.  The definitions below are
a shallow embedding of the server-side code that the specification describes:

* `src/app/api/chat/route.ts` — the chat turn handler (`POST`), its location
  classifier (`parseLocationFromMessage`), intent analyzer
  (`analyzeWeatherQueryType`), weather gateway (`getWeatherData`), emoji helper
  (`getWeatherEmoji`) and timezone-name helper (`getTimezoneFromCoordinates`);
* `src/app/api/weather/route.ts` — `normalizeLocationQuery` and the `GET`
  handler's sunrise/sunset formatting;
* `src/app/mcp-server/index.ts` — `handleGetWeatherForecast` and the forecast
  arm of `fetchWeatherData`;
* the narrative generator route (`generateWeatherNarrative`).

External effects (the Groq LLM calls and the OpenWeather HTTP fetches) are
modelled as oracle values carried in an environment record: an
`Except Unit α` models a network/LLM call that either throws (`.error`) or
returns a parsed value (`.ok`).  JavaScript strings are modelled through
`List Char` operations.
-/

namespace PMA

/-! ### Character-level models of the JavaScript string operations -/

/-- Model of the JS `\s` whitespace class (the characters relevant here). -/
def isWS (c : Char) : Bool := c = ' ' || c = '\t' || c = '\n' || c = '\r'

/-- Model of JS `String.prototype.trim`. -/
def trimChars (cs : List Char) : List Char :=
  ((cs.dropWhile isWS).reverse.dropWhile isWS).reverse

/-- Collapse adjacent spaces (used to model `replace(/\s+/g, ' ')`). -/
def squeezeSpaces : List Char → List Char
  | [] => []
  | [c] => [c]
  | a :: b :: rest =>
    if a = ' ' && b = ' ' then squeezeSpaces (b :: rest)
    else a :: squeezeSpaces (b :: rest)

/-- Model of `replace(/\s+/g, ' ')`: every whitespace run becomes one space. -/
def collapseWS (cs : List Char) : List Char :=
  squeezeSpaces (cs.map fun c => if isWS c then ' ' else c)

def lowerChars (cs : List Char) : List Char := cs.map Char.toLower

/-- Model of JS `toLowerCase` (ASCII range, which is all the code compares). -/
def toLowerStr (s : String) : String := (lowerChars s.data).asString

/-- Model of JS `trim` on `String`. -/
def trimStr (s : String) : String := (trimChars s.data).asString

def startsWithWS : List Char → Bool
  | [] => false
  | c :: _ => isWS c

/-- Model of `replace(/^(st\.|saint)\s+/i, 'Saint ')`. -/
def saintRule (cs : List Char) : List Char :=
  if lowerChars (cs.take 3) = "st.".data && startsWithWS (cs.drop 3) then
    "Saint ".data ++ (cs.drop 3).dropWhile isWS
  else if lowerChars (cs.take 5) = "saint".data && startsWithWS (cs.drop 5) then
    "Saint ".data ++ (cs.drop 5).dropWhile isWS
  else cs

def usaTokens : List (List Char) :=
  ["united states".data, "usa".data, "us".data, "america".data]

/-- Does the whole list match `,?\s*(?:united states|usa|us|america)` (case
insensitively)?  This is the anchored tail of the USA-suffix regex. -/
def usaSuffixAt (cs : List Char) : Bool :=
  let cs1 := match cs with
    | ',' :: r => r
    | _ => cs
  let cs2 := cs1.dropWhile isWS
  usaTokens.any fun t => lowerChars cs2 = t

/-- Model of `replace(/,?\s*(?:united states|usa|us|america)$/i, '')`: remove
the leftmost suffix matching the pattern (the match always extends to the end
of the string because of the `$` anchor). -/
def stripUsa : List Char → List Char
  | [] => []
  | c :: rest =>
    if usaSuffixAt (c :: rest) then []
    else c :: stripUsa rest

def isL (c : Char) : Bool := 'a' ≤ c && c ≤ 'z'
def isU (c : Char) : Bool := 'A' ≤ c && c ≤ 'Z'
def isLetterAscii (c : Char) : Bool := isL c || isU c

/-- Does the whole list match `,\s*([a-z]{2})` case-insensitively?  Returns the
two captured letters. -/
def stateSuffixAt : List Char → Option (Char × Char)
  | ',' :: rest =>
    match rest.dropWhile isWS with
    | [a, b] => if isLetterAscii a && isLetterAscii b then some (a, b) else none
    | _ => none
  | _ => none

/-- Model of `replace(/,\s*([a-z]{2})$/i, ', $1')`. -/
def formatState : List Char → List Char
  | [] => []
  | c :: rest =>
    match stateSuffixAt (c :: rest) with
    | some (a, b) => [',', ' ', a, b]
    | none => c :: formatState rest

/-- Model of `replace(/([a-z])([A-Z])/g, '$1 $2')` — the global scan inserts a
space between each lowercase/uppercase adjacency and resumes after the match. -/
def camelSpace : List Char → List Char
  | [] => []
  | [c] => [c]
  | a :: b :: rest =>
    if isL a && isU b then a :: ' ' :: b :: camelSpace rest
    else a :: camelSpace (b :: rest)

/-- `normalizeLocationQuery` from `src/app/api/weather/route.ts` (the same
function also appears verbatim in the MCP-backed variant of that route):
trim, collapse whitespace, normalize the Saint prefix, strip a USA country
suffix, reformat a trailing state code, and split camelCase. -/
def normalizeLocationQuery (s : String) : String :=
  (camelSpace (formatState (stripUsa (saintRule (collapseWS (trimChars s.data)))))).asString

/-! ### Forecast feed normalization

`getWeatherData` in `src/app/api/chat/route.ts` (and, identically, the
forecast arm of `fetchWeatherData` in `src/app/mcp-server/index.ts` and
`getWeatherForecastDirect` in `src/app/lib/weatherMCPClient.ts`) collapses the
multi-sample upstream forecast feed to one record per calendar date with a
`reduce`/`find` pass and then truncates with `slice`. -/

/-- One sample of the upstream forecast feed (`forecastData.list` entries):
`dt` is an epoch timestamp in seconds, `temp` the raw provider temperature. -/
structure FItem where
  dt : Nat
  temp : ℚ
  description : String
  icon : String
deriving DecidableEq

/-- One normalized daily forecast record; `date` is in epoch milliseconds
(`item.dt * 1000`), `temp` is rounded. -/
structure FRec where
  date : Nat
  temp : Int
  description : String
  icon : String
deriving DecidableEq

/-- Model of JS `Math.round` (round half toward positive infinity, i.e.
`⌊q + 1/2⌋`), written on the numerator/denominator so that it evaluates by
kernel reduction; `jsRound_eq_floor` below proves it is that floor. -/
def jsRound (q : ℚ) : Int := (2 * q.num + (q.den : Int)) / (2 * (q.den : Int))

/-- Calendar date (as a UTC day index) of an epoch-milliseconds value; the
source computes `new Date(ms).toISOString().split('T')[0]`, which for the
nonnegative epochs involved is in bijection with `ms / 86400000`. -/
def dayMs (ms : Nat) : Nat := ms / 86400000

/-- Calendar date (UTC day index) of an epoch-seconds value, the date computed
from `item.dt * 1000`. -/
def daySec (t : Nat) : Nat := t / 86400

/-- Calendar date of a normalized record. -/
def dayR (r : FRec) : Nat := dayMs r.date

/-- The record pushed for a feed item:
`{ date: item.dt * 1000, temp: Math.round(item.main.temp), description, icon }`. -/
def toFRec (it : FItem) : FRec :=
  ⟨it.dt * 1000, jsRound it.temp, it.description, it.icon⟩

/-- One step of the `reduce`: push the item's record unless the accumulator
already has a record with the same calendar date (`acc.find(...)`). -/
def dedupStep (acc : List FRec) (it : FItem) : List FRec :=
  if acc.any fun f => dayMs f.date == daySec it.dt then acc
  else acc ++ [toFRec it]

/-- The full `reduce((acc, item) => ..., [])` pass. -/
def dedupDaily (l : List FItem) : List FRec := l.foldl dedupStep []

/-- `dailyForecasts` of the chat route: the `reduce` pass followed by
`.slice(0, 7)`. -/
def dailyForecasts (l : List FItem) : List FRec := (dedupDaily l).take 7

/-! ### Time formatting (`toLocaleTimeString` with `hour12` and 2-digit fields)

`src/app/api/chat/route.ts` adds the provider-reported UTC offset to the raw
sunrise/sunset epochs and formats with `timeZone: 'UTC'`;
`src/app/api/weather/route.ts` formats the raw epochs with *no* `timeZone`
option, i.e. in the server's local timezone. -/

def pad2 (n : Nat) : String := if n < 10 then "0" ++ toString n else toString n

/-- `toLocaleTimeString('en-US', { hour: '2-digit', minute: '2-digit',
hour12: true })` applied to a time of day given in seconds since midnight. -/
def fmt12 (t : Nat) : String :=
  let s := t % 86400
  let h := s / 3600
  let m := s % 3600 / 60
  let h12 := if h % 12 = 0 then 12 else h % 12
  let ap := if h < 12 then "AM" else "PM"
  pad2 h12 ++ ":" ++ pad2 m ++ " " ++ ap

/-- Formatting an epoch (seconds) in a timezone given by `fmtOffset` seconds
from UTC: the wall clock shown is `epoch + fmtOffset` reduced modulo a day. -/
def jsLocaleTime (epoch : Int) (fmtOffset : Int) : String :=
  fmt12 ((epoch + fmtOffset).emod 86400).toNat

/-- Sunrise/sunset string built by the chat route's `getWeatherData`:
`new Date((raw + timezoneOffsetSeconds) * 1000)` formatted with
`timeZone: 'UTC'`, suffixed with the display timezone name.  `serverOff` is
the server's local offset; because the code pins `timeZone: 'UTC'` it does not
enter the result. -/
def chatTimeStr (raw : Nat) (tz : Int) (tzName : String) (serverOff : Int) : String :=
  let _ := serverOff
  jsLocaleTime ((raw : Int) + tz) 0 ++ " (" ++ tzName ++ ")"

/-- Sunrise/sunset string built by the `GET` handler of
`src/app/api/weather/route.ts`: `new Date(raw * 1000).toLocaleTimeString(...)`
with no `timeZone` option, hence rendered in the server's local timezone. -/
def weatherGETTimeStr (raw : Nat) (serverOff : Int) : String :=
  jsLocaleTime (raw : Int) serverOff

/-! ### The chat route (`src/app/api/chat/route.ts`) -/

/-- Outcome of the Groq location-extraction call: `.error` models a thrown
request, `.ok none` a response with missing/empty content, `.ok (some s)` a
response with content `s`. -/
abbrev LLMText := Except Unit (Option String)

/-- `parseLocationFromMessage`: returns the trimmed model output unless the
call threw, the content was missing/empty, or the output is (any case of)
`"null"`; all of those yield `null`. -/
def parseLocationFromMessage (llm : LLMText) : Option String :=
  match llm with
  | .error _ => none
  | .ok none => none
  | .ok (some content) =>
    if content = "" then none
    else
      let result := trimStr content
      if result = "null" ∨ toLowerStr result = "null" then none else some result

/-- The query-type union of `analyzeWeatherQueryType`; the source type is
`'current' | 'forecast' | 'mixed'` — it has no `none` variant. -/
inductive QueryType
  | current
  | forecast
  | mixed
deriving DecidableEq

/-- `analyzeWeatherQueryType`: lowercases/trims the model output, maps
`"forecast"`/`"mixed"` to those variants and everything else — including a
thrown call or missing content — to `current`. -/
def analyzeWeatherQueryType (llm : LLMText) : QueryType :=
  match llm with
  | .error _ => .current
  | .ok c =>
    let result := c.map fun s => toLowerStr (trimStr s)
    if result = some "forecast" then .forecast
    else if result = some "mixed" then .mixed
    else .current

/-- `getTimezoneFromCoordinates`: the trimmed model output, or `"Local Time"`
when the call threw or produced no usable content. -/
def getTimezoneFromCoordinates (llm : LLMText) : String :=
  match llm with
  | .error _ => "Local Time"
  | .ok none => "Local Time"
  | .ok (some s) =>
    let t := trimStr s
    if t = "" then "Local Time" else t

/-- Naive substring occurrence, modelling JS `String.prototype.includes`. -/
def containsChars (needle : List Char) : List Char → Bool
  | [] => needle.isEmpty
  | c :: rest => needle.isPrefixOf (c :: rest) || containsChars needle rest

def containsStr (hay needle : String) : Bool := containsChars needle.data hay.data

/-- `getWeatherEmoji` from the chat route. -/
def getWeatherEmoji (description : String) : String :=
  let desc := toLowerStr description
  if containsStr desc "clear" then "☀️"
  else if containsStr desc "cloud" then "☁️"
  else if containsStr desc "rain" then "🌧️"
  else if containsStr desc "snow" then "❄️"
  else if containsStr desc "thunder" then "⛈️"
  else if containsStr desc "mist" || containsStr desc "fog" then "🌫️"
  else "🌡️"

/-- A geocoding result entry (`{name, country, state?, lat, lon}`). -/
structure GeoLoc where
  name : String
  country : String
  state : Option String
  lat : Int
  lon : Int
deriving DecidableEq

/-- Parsed body of the current-conditions response used by the chat route:
`status` is the HTTP status, `message` the provider error message field,
`timezone` the provider-reported offset from UTC in seconds. -/
structure CurrentResp where
  status : Nat
  name : String
  temp : ℚ
  feels_like : ℚ
  description : String
  humidity : Nat
  wind_speed : ℚ
  sunrise : Nat
  sunset : Nat
  timezone : Int
  message : Option String
deriving DecidableEq

/-- Parsed body of the forecast-feed response. -/
structure ForecastResp where
  status : Nat
  list : List FItem
  message : Option String
deriving DecidableEq

/-- The normalized record returned by the chat route's `getWeatherData`
(the spec's `NormalizedWeather`). -/
structure WeatherRec where
  city : String
  lat : Int
  lon : Int
  temperature : Int
  feels_like : Int
  description : String
  humidity : Nat
  wind_speed : Int
  sunrise : String
  sunset : String
  forecast : List FRec
deriving DecidableEq

/-- The external world as seen by one `getWeatherData` call: the configured
key and the outcome of each upstream request, plus the timezone-name LLM call
and the server's local UTC offset (seconds). -/
structure ChatEnv where
  owmKey : Option String
  geo : Except Unit (List GeoLoc)
  current : Except Unit CurrentResp
  forecastResp : Except Unit ForecastResp
  tzNameLLM : LLMText
  serverOffset : Int

/-- Which upstream fetches a `getWeatherData` call issued. -/
structure Trace where
  geoFetched : Bool
  currentFetched : Bool
  forecastFetched : Bool
deriving DecidableEq

/-- `getWeatherData` of the chat route: geocode, fetch current conditions,
fetch the forecast feed (both fetches happen on every successful path —
the function does not receive the classified intent), normalize.  The second
component records which fetches were issued. -/
def getWeatherData (city : String) (env : ChatEnv) :
    Except String WeatherRec × Trace :=
  let _ := city
  if env.owmKey.getD "" = "" then
    (.error "OpenWeather API key not configured", ⟨false, false, false⟩)
  else
    match env.geo with
    | .error _ => (.error "fetch failed", ⟨true, false, false⟩)
    | .ok geoData =>
      match geoData with
      | [] => (.error "City not found", ⟨true, false, false⟩)
      | g :: _ =>
        match env.current with
        | .error _ => (.error "fetch failed", ⟨true, true, false⟩)
        | .ok w =>
          if w.status ≠ 200 then
            (.error (w.message.getD "Failed to fetch weather data"), ⟨true, true, false⟩)
          else
            match env.forecastResp with
            | .error _ => (.error "fetch failed", ⟨true, true, true⟩)
            | .ok f =>
              if f.status ≠ 200 then
                (.error (f.message.getD "Failed to fetch forecast data"), ⟨true, true, true⟩)
              else
                let tzName := getTimezoneFromCoordinates env.tzNameLLM
                (.ok
                  { city := w.name
                    lat := g.lat
                    lon := g.lon
                    temperature := jsRound w.temp
                    feels_like := jsRound w.feels_like
                    description := w.description
                    humidity := w.humidity
                    wind_speed := jsRound w.wind_speed
                    sunrise := chatTimeStr w.sunrise w.timezone tzName env.serverOffset
                    sunset := chatTimeStr w.sunset w.timezone tzName env.serverOffset
                    forecast := dailyForecasts f.list },
                  ⟨true, true, true⟩)

/-- The apologetic reply produced by the weather-error catch in `POST`. -/
def apologyText (loc : String) : String :=
  "I apologize, but I couldn't fetch the weather data for " ++ loc ++
    " at the moment. Would you like to try another location or ask me something else?"

/-- The fallback reply used when the grounded generation returns no content. -/
def chatFallbackText (city emoji : String) : String :=
  "Here's the weather information for " ++ city ++ "! " ++ emoji

/-- Everything external that one `POST` invocation consumes. -/
structure PostEnv where
  chatEnv : ChatEnv
  locLLM : LLMText
  intentLLM : LLMText
  genLLM : LLMText
  genericLLM : Except Unit String

/-- Result of a `POST` invocation: either a JSON chat message (content plus
optional structured weather payload) or the 500 response of the outer catch. -/
inductive PostResult
  | ok (content : String) (weatherData : Option WeatherRec)
  | serverError
deriving DecidableEq

/-- `POST` of `src/app/api/chat/route.ts`.  An empty message list crashes on
`messages[messages.length - 1].content` and is turned into the 500 response by
the outer catch.  When the classifier yields a location, `getWeatherData` runs
*before* `analyzeWeatherQueryType`; a thrown weather fetch or a thrown
grounded-generation call are both caught by the inner catch, which replies
with the apology and no payload.  Without a location the generic completion
runs; if it throws, the outer catch produces the 500 response. -/
def POST (messages : List String) (env : PostEnv) : PostResult :=
  if messages.isEmpty then .serverError
  else
    match parseLocationFromMessage env.locLLM with
    | some location =>
      match (getWeatherData location env.chatEnv).1 with
      | .error _ => .ok (apologyText location) none
      | .ok wd =>
        let emoji := getWeatherEmoji wd.description
        let _qa := analyzeWeatherQueryType env.intentLLM
        match env.genLLM with
        | .error _ => .ok (apologyText location) none
        | .ok c =>
          let response :=
            match c with
            | some s => if s = "" then chatFallbackText wd.city emoji else s
            | none => chatFallbackText wd.city emoji
          .ok response (some wd)
    | none =>
      match env.genericLLM with
      | .error _ => .serverError
      | .ok c => .ok c none

/-- Module-level credential check of the chat route (lines 4–6): importing the
module throws when `GROQ_API_KEY` is absent (or empty, by JS truthiness). -/
def moduleInitChat (groqKey : Option String) : Except String Unit :=
  if groqKey.getD "" = "" then .error "Missing GROQ_API_KEY environment variable"
  else .ok ()

/-! ### The narrative generator (`generateWeatherNarrative`) -/

/-- The deterministic fallback sentence of `generateWeatherNarrative`'s catch
block, built from the weather record's fields. -/
def narrativeFallback (w : WeatherRec) : String :=
  "Current weather conditions in " ++ w.city ++ " show " ++ w.description ++
    " with temperatures reaching " ++ toString w.temperature ++
    "°C. The humidity stands at " ++ toString w.humidity ++
    "% with winds at " ++ toString w.wind_speed ++
    " km/h. Residents can expect " ++
    (if w.temperature < w.feels_like then "warmer" else "cooler") ++
    " feeling conditions due to the current atmospheric conditions."

/-- `generateWeatherNarrative`: the model text when present, a static notice
when the response had no content, and the deterministic template when the call
threw. -/
def generateWeatherNarrative (llm : LLMText) (w : WeatherRec) : String :=
  match llm with
  | .error _ => narrativeFallback w
  | .ok none => "Weather report could not be generated at this time."
  | .ok (some s) =>
    if s = "" then "Weather report could not be generated at this time." else s

/-! ### The MCP server's `get_weather_forecast` tool
(`src/app/mcp-server/index.ts`) -/

/-- A JSON argument value as the tool handler can observe it. -/
inductive JSVal
  | vnum (n : Int)
  | vstr (s : String)
  | vbool (b : Bool)
  | vnull
deriving DecidableEq

/-- The `arguments` object of a `get_weather_forecast` call; `none` models an
absent property. -/
structure ForecastArgs where
  location : Option JSVal
  days : Option JSVal
deriving DecidableEq

/-- The two `McpError` codes the handler can raise. -/
inductive McpErr
  | invalidParams (msg : String)
  | internalError (msg : String)
deriving DecidableEq

/-- Result of the forecast arm of `fetchWeatherData`. -/
structure McpForecastResult where
  locName : String
  country : String
  state : Option String
  lat : Int
  lon : Int
  forecast : List FRec
deriving DecidableEq

/-- External world for one MCP fetch. -/
structure McpEnv where
  owmKey : Option String
  geo : Except Unit (List GeoLoc)
  forecastFeed : Except Unit (List FItem)

/-- JS `days || 7`. -/
def jsor (n : Int) : Int := if n = 0 then 7 else n

/-- The forecast arm of the MCP server's `fetchWeatherData`: key check,
geocode, fetch the feed, dedup per calendar day, `slice(0, days || 7)`. -/
def fetchWeatherDataForecast (location : String) (days : Int) (env : McpEnv) :
    Except String McpForecastResult :=
  if env.owmKey.getD "" = "" then .error "OpenWeather API key not configured"
  else
    match env.geo with
    | .error _ => .error "Failed to geocode location"
    | .ok [] => .error ("Location \"" ++ location ++ "\" not found")
    | .ok (g :: _) =>
      match env.forecastFeed with
      | .error _ => .error "Failed to fetch forecast data"
      | .ok feed =>
        .ok
          { locName := g.name
            country := g.country
            state := g.state
            lat := g.lat
            lon := g.lon
            forecast := (dedupDaily feed).take (jsor days).toNat }

/-- The JS truthy-string test `!location || typeof location !== 'string'`
(negated): passes exactly on a present, non-empty string argument. -/
def jsTruthyStr : Option JSVal → Option String
  | some (.vstr s) => if s = "" then none else some s
  | _ => none

/-- `handleGetWeatherForecast`: `days` defaults to 7 when absent; the location
argument must be a truthy string and `days` a number in `[1, 7]`, else an
`InvalidParams` `McpError` is thrown; fetch failures become `InternalError`. -/
def handleGetWeatherForecast (args : ForecastArgs) (env : McpEnv) :
    Except McpErr McpForecastResult :=
  match jsTruthyStr args.location with
  | none => .error (.invalidParams "Location parameter is required and must be a string")
  | some loc =>
    match args.days.getD (.vnum 7) with
    | .vnum n =>
      if n < 1 ∨ 7 < n then
        .error (.invalidParams "Days parameter must be a number between 1 and 7")
      else
        match fetchWeatherDataForecast loc n env with
        | .error msg => .error (.internalError ("Failed to fetch forecast data: " ++ msg))
        | .ok r => .ok r
    | _ => .error (.invalidParams "Days parameter must be a number between 1 and 7")

/-- The acceptance condition the specification states for the `days` argument:
a number in `[1, 7]`. -/
def daysOkP (v : JSVal) : Prop := ∃ n, v = JSVal.vnum n ∧ 1 ≤ n ∧ n ≤ 7

/-! ### Concrete sample environments used to instantiate the theorems -/

/-- A sample upstream forecast feed: two samples on day 0, then one sample on
each of days 1 and 2. -/
def feedEx : List FItem :=
  [⟨3600, 10, "clear sky", "01d"⟩, ⟨14400, 12, "few clouds", "02d"⟩,
    ⟨90000, 8, "light rain", "10d"⟩, ⟨180000, 9, "snow", "13d"⟩]

/-- A fully healthy external world for one chat-route weather turn. -/
def chatEnvB : ChatEnv :=
  ⟨some "k", .ok [⟨"Paris", "FR", none, 48, 2⟩],
    .ok ⟨200, "Paris", 18, 17, "clear sky", 60, 5, 21600, 64800, 0, none⟩,
    .ok ⟨200, [], none⟩, .ok none, 0⟩

/-- A `POST` environment whose intent analysis yields `current` and whose
grounded generation succeeds. -/
def postEnvB : PostEnv :=
  ⟨chatEnvB, .ok (some "Paris"), .ok (some "current"),
    .ok (some "It is 18°C in Paris."), .ok "hi"⟩

/-- The normalized record `getWeatherData` produces from `chatEnvB`. -/
def wdB : WeatherRec :=
  ⟨"Paris", 48, 2, 18, 17, "clear sky", 60, 5,
    "06:00 AM (Local Time)", "06:00 PM (Local Time)", []⟩

/-- An external world whose geocoding lookup returns zero results. -/
def chatEnvC : ChatEnv := ⟨some "k", .ok [], .error (), .error (), .error (), 0⟩

/-- A `POST` environment classifying the location `"Atlantis"`, which then
fails geocoding. -/
def postEnvC : PostEnv := ⟨chatEnvC, .ok (some "Atlantis"), .error (), .error (), .ok "hi"⟩

/-- A `POST` environment where the weather fetch succeeds but the grounded
generation call throws. -/
def postEnvD : PostEnv :=
  ⟨chatEnvB, .ok (some "Paris"), .ok (some "current"), .error (), .ok "hi"⟩

/-- A `POST` environment where the weather fetch succeeds and the grounded
generation call returns a response without content. -/
def postEnvE : PostEnv :=
  ⟨chatEnvB, .ok (some "Paris"), .ok (some "current"), .ok none, .ok "hi"⟩

/-- A chat-route world whose OpenWeather credential is absent. -/
def chatEnvNoKey : ChatEnv := ⟨none, .error (), .error (), .error (), .error (), 0⟩

/-- A `POST` environment running a weather turn against `chatEnvNoKey`. -/
def postEnvNoKey : PostEnv :=
  ⟨chatEnvNoKey, .ok (some "Paris"), .error (), .error (), .ok "hello"⟩

/-- A healthy MCP-server world with a four-day forecast feed. -/
def mcpEnvF : McpEnv :=
  ⟨some "k", .ok [⟨"Paris", "FR", none, 48, 2⟩],
    .ok [⟨3600, 10, "clear sky", "01d"⟩, ⟨90000, 8, "light rain", "10d"⟩,
      ⟨180000, 9, "snow", "13d"⟩, ⟨266400, 7, "scattered clouds", "03d"⟩]⟩

/-- What the forecast tool returns from `mcpEnvF` for `days = 3`. -/
def mcpResF : McpForecastResult :=
  ⟨"Paris", "FR", none, 48, 2,
    [⟨3600000, 10, "clear sky", "01d"⟩, ⟨90000000, 8, "light rain", "10d"⟩,
      ⟨180000000, 9, "snow", "13d"⟩]⟩

/-! ### Supporting lemmas about the forecast normalization pass -/

/-- `jsRound` is `⌊q + 1/2⌋`, the mathematical reading of `Math.round`. -/
theorem jsRound_eq_floor (q : ℚ) : jsRound q = Int.floor (q + 1 / 2) := by
  have hq : (q + 1 / 2 : ℚ) = ((2 * q.num + (q.den : ℤ) : ℤ) : ℚ) / ((2 * q.den : ℕ) : ℚ) := by
    have hden : ((q.den : ℚ)) ≠ 0 := by exact_mod_cast q.den_nz
    rw [eq_div_iff (by positivity)]
    push_cast
    have h1 : q * (q.den : ℚ) = (q.num : ℚ) := by
      nth_rewrite 1 [← Rat.num_div_den q]
      field_simp
    calc (q + 1 / 2) * (2 * (q.den : ℚ)) = 2 * (q * (q.den : ℚ)) + q.den := by ring
      _ = 2 * (q.num : ℚ) + q.den := by rw [h1]
  rw [jsRound, hq, Rat.floor_intCast_div_natCast]
  congr 1

theorem dayR_toFRec (it : FItem) : dayR (toFRec it) = daySec it.dt := by
  show it.dt * 1000 / 86400000 = it.dt / 86400
  calc it.dt * 1000 / 86400000 = it.dt * 1000 / 1000 / 86400 := by
        rw [Nat.div_div_eq_div_mul]
    _ = it.dt / 86400 := by rw [Nat.mul_div_cancel _ (by norm_num)]

theorem any_day_iff (acc : List FRec) (d : Nat) :
    (acc.any fun f => dayMs f.date == d) = true ↔ ∃ f ∈ acc, dayMs f.date = d := by
  simp [List.any_eq_true]

theorem foldl_dedup_prefix :
    ∀ (l : List FItem) (acc : List FRec), ∃ t, l.foldl dedupStep acc = acc ++ t
  | [], acc => ⟨[], by simp⟩
  | it :: rest, acc => by
    show ∃ t, rest.foldl dedupStep (dedupStep acc it) = acc ++ t
    by_cases h : (acc.any fun f => dayMs f.date == daySec it.dt) = true
    · have hstep : dedupStep acc it = acc := by simp [dedupStep, h]
      rw [hstep]
      exact foldl_dedup_prefix rest acc
    · have hstep : dedupStep acc it = acc ++ [toFRec it] := by simp [dedupStep, h]
      rw [hstep]
      obtain ⟨t, ht⟩ := foldl_dedup_prefix rest (acc ++ [toFRec it])
      exact ⟨toFRec it :: t, by rw [ht, List.append_assoc, List.singleton_append]⟩

/-- Every record produced by the `reduce` pass (beyond the seed accumulator)
is the record of the *first* feed item with its calendar date. -/
theorem mem_foldl_dedup_first :
    ∀ (l : List FItem) (acc : List FRec) (r : FRec), r ∈ l.foldl dedupStep acc →
      r ∈ acc ∨
        (∃ it, l.find? (fun x => dayMs r.date == daySec x.dt) = some it ∧
          r = toFRec it ∧ ∀ f ∈ acc, dayMs f.date ≠ dayMs r.date)
  | [], _, r, hr => Or.inl (by simpa using hr)
  | it :: rest, acc, r, hr => by
    have hr' : r ∈ rest.foldl dedupStep (dedupStep acc it) := hr
    by_cases h : (acc.any fun f => dayMs f.date == daySec it.dt) = true
    · have hstep : dedupStep acc it = acc := by simp [dedupStep, h]
      rw [hstep] at hr'
      rcases mem_foldl_dedup_first rest acc r hr' with hmem | ⟨it', hfind, hrec, hne⟩
      · exact Or.inl hmem
      · refine Or.inr ⟨it', ?_, hrec, hne⟩
        obtain ⟨f, hf, hfd⟩ := (any_day_iff acc (daySec it.dt)).mp h
        have hnd : dayMs r.date ≠ daySec it.dt := by
          rw [← hfd]; exact fun he => hne f hf he.symm
        rw [List.find?_cons_of_neg, hfind]
        simpa using hnd
    · have hstep : dedupStep acc it = acc ++ [toFRec it] := by simp [dedupStep, h]
      rw [hstep] at hr'
      rcases mem_foldl_dedup_first rest (acc ++ [toFRec it]) r hr' with hmem | ⟨it', hfind, hrec, hne⟩
      · rcases List.mem_append.mp hmem with hacc | hnew
        · exact Or.inl hacc
        · have hr2 : r = toFRec it := by simpa using hnew
          refine Or.inr ⟨it, ?_, hr2, ?_⟩
          · rw [List.find?_cons_of_pos]
            rw [hr2]
            simpa [dayR] using dayR_toFRec it
          · intro f hf he
            exact h ((any_day_iff acc (daySec it.dt)).mpr
              ⟨f, hf, by rw [he, hr2]; exact dayR_toFRec it⟩)
      · have hit : dayMs (toFRec it).date ≠ dayMs r.date :=
          hne (toFRec it) (List.mem_append_right _ (by simp))
        refine Or.inr ⟨it', ?_, hrec, fun f hf => hne f (List.mem_append_left _ hf)⟩
        rw [List.find?_cons_of_neg, hfind]
        have hneq : dayMs r.date ≠ daySec it.dt := fun he =>
          hit ((dayR_toFRec it).trans he.symm)
        simpa using hneq

/-- On a feed whose timestamps are ascending, the calendar dates of the dedup
pass are strictly increasing. -/
theorem pairwise_foldl_dedup :
    ∀ (l : List FItem) (acc : List FRec),
      l.Pairwise (fun a b => a.dt ≤ b.dt) →
      ((acc.map dayR).Pairwise (· < ·)) →
      (∀ f ∈ acc, ∀ it ∈ l, dayR f ≤ daySec it.dt) →
      (((l.foldl dedupStep acc).map dayR).Pairwise (· < ·))
  | [], acc, _, hacc, _ => hacc
  | it :: rest, acc, hl, hacc, hle => by
    have h1 : ∀ b ∈ rest, it.dt ≤ b.dt := (List.pairwise_cons.mp hl).1
    have h2 : rest.Pairwise (fun a b => a.dt ≤ b.dt) := (List.pairwise_cons.mp hl).2
    show (((rest.foldl dedupStep (dedupStep acc it)).map dayR).Pairwise (· < ·))
    by_cases h : (acc.any fun f => dayMs f.date == daySec it.dt) = true
    · have hstep : dedupStep acc it = acc := by simp [dedupStep, h]
      rw [hstep]
      exact pairwise_foldl_dedup rest acc h2 hacc
        (fun f hf it' h' => hle f hf it' (List.mem_cons_of_mem _ h'))
    · have hstep : dedupStep acc it = acc ++ [toFRec it] := by simp [dedupStep, h]
      rw [hstep]
      refine pairwise_foldl_dedup rest (acc ++ [toFRec it]) h2 ?_ ?_
      · rw [List.map_append, List.pairwise_append]
        refine ⟨hacc, by simp, ?_⟩
        intro x hx y hy
        simp only [List.map_cons, List.map_nil, List.mem_singleton] at hy
        obtain ⟨f, hf, hfx⟩ := List.mem_map.mp hx
        have hle' : x ≤ daySec it.dt := hfx ▸ hle f hf it (List.mem_cons_self _ _)
        have hne : x ≠ daySec it.dt := by
          intro he
          exact h ((any_day_iff acc (daySec it.dt)).mpr ⟨f, hf, by rw [← he, ← hfx]; rfl⟩)
        rw [hy, dayR_toFRec]
        exact lt_of_le_of_ne hle' hne
      · intro f hf it' hit'
        rcases List.mem_append.mp hf with hacc' | hnew
        · exact hle f hacc' it' (List.mem_cons_of_mem _ hit')
        · have hr : f = toFRec it := by simpa using hnew
          rw [hr, dayR_toFRec]
          exact Nat.div_le_div_right (h1 it' hit')

/-- Every calendar date occurring in the feed has a record in the dedup pass
(before truncation). -/
theorem day_mem_foldl :
    ∀ (l : List FItem) (acc : List FRec) (it : FItem), it ∈ l →
      ∃ r ∈ l.foldl dedupStep acc, dayR r = daySec it.dt
  | [], _, _, hit => absurd hit (List.not_mem_nil _)
  | x :: rest, acc, it, hit => by
    show ∃ r ∈ rest.foldl dedupStep (dedupStep acc x), dayR r = daySec it.dt
    rcases List.mem_cons.mp hit with he | hrest
    · subst he
      by_cases h : (acc.any fun f => dayMs f.date == daySec it.dt) = true
      · obtain ⟨f, hf, hfd⟩ := (any_day_iff acc (daySec it.dt)).mp h
        obtain ⟨t, ht⟩ := foldl_dedup_prefix rest (dedupStep acc it)
        have hstep : dedupStep acc it = acc := by simp [dedupStep, h]
        refine ⟨f, ?_, hfd⟩
        rw [ht, hstep]
        exact List.mem_append_left _ hf
      · have hstep : dedupStep acc it = acc ++ [toFRec it] := by simp [dedupStep, h]
        obtain ⟨t, ht⟩ := foldl_dedup_prefix rest (dedupStep acc it)
        refine ⟨toFRec it, ?_, dayR_toFRec it⟩
        rw [ht, hstep]
        exact List.mem_append_left _ (List.mem_append_right _ (by simp))
    · exact day_mem_foldl rest (dedupStep acc x) it hrest

/-! ### Claim theorems -/

/-- C3: for every chronologically ordered upstream forecast feed, the
normalized forecast (1) has length at most 7, (2) has strictly ascending
calendar dates (hence no duplicate dates), (3) consists of records each of
which is the *first* feed sample of its calendar date, and (4) before the
7-day truncation every calendar date appearing in the feed is represented. -/
theorem dailyForecasts_spec (l : List FItem)
    (hl : l.Pairwise fun a b => a.dt ≤ b.dt) :
    (dailyForecasts l).length ≤ 7 ∧
    ((dailyForecasts l).map dayR).Pairwise (· < ·) ∧
    (∀ r ∈ dailyForecasts l,
      ∃ it, l.find? (fun x => dayMs r.date == daySec x.dt) = some it ∧ r = toFRec it) ∧
    (∀ it ∈ l, ∃ r ∈ dedupDaily l, dayR r = daySec it.dt) := by
  refine ⟨?_, ?_, ?_, ?_⟩
  · rw [dailyForecasts, List.length_take]
    exact min_le_left _ _
  · have hp := pairwise_foldl_dedup l [] hl (by simp) (by simp)
    have hsub : List.Sublist ((dailyForecasts l).map dayR) ((dedupDaily l).map dayR) :=
      (List.take_sublist 7 (dedupDaily l)).map dayR
    exact List.Pairwise.sublist hsub hp
  · intro r hr
    have hr' : r ∈ dedupDaily l := (List.take_sublist 7 (dedupDaily l)).subset hr
    rcases mem_foldl_dedup_first l [] r hr' with hmem | ⟨it, hfind, hrec, _⟩
    · simp at hmem
    · exact ⟨it, hfind, hrec⟩
  · intro it hit
    exact day_mem_foldl l [] it hit

/-- C3 witness: the specification instantiated on the concrete feed
`feedEx` (two samples on the first day, then one per day). -/
theorem dailyForecasts_spec_witness :
    (dailyForecasts feedEx).length ≤ 7 ∧
    ((dailyForecasts feedEx).map dayR).Pairwise (· < ·) ∧
    (∀ r ∈ dailyForecasts feedEx,
      ∃ it, feedEx.find? (fun x => dayMs r.date == daySec x.dt) = some it ∧ r = toFRec it) ∧
    (∀ it ∈ feedEx, ∃ r ∈ dedupDaily feedEx, dayR r = daySec it.dt) :=
  dailyForecasts_spec feedEx (by decide)

/-- C5 counterexample: the claim says a failing language-model call makes the
classifier return intent `none`; but `analyzeWeatherQueryType` returns
`current` when its LLM call throws, and its result type
(`'current' | 'forecast' | 'mixed'`) has no `none` variant at all. -/
theorem analyzeWeatherQueryType_error_returns_current :
    analyzeWeatherQueryType (.error ()) = QueryType.current ∧
    ∀ q : QueryType, q = QueryType.current ∨ q = QueryType.forecast ∨ q = QueryType.mixed := by
  refine ⟨rfl, fun q => ?_⟩
  cases q
  · exact Or.inl rfl
  · exact Or.inr (Or.inl rfl)
  · exact Or.inr (Or.inr rfl)

/-- C5 amended: on an LLM error the location classifier fails soft to `null`,
while the intent analyzer fails soft to `current` (not to a `none` intent);
any unparseable intent output likewise maps to `current`. -/
theorem classifier_fails_soft (s : String)
    (h1 : toLowerStr (trimStr s) ≠ "forecast")
    (h2 : toLowerStr (trimStr s) ≠ "mixed") :
    parseLocationFromMessage (.error ()) = none ∧
    analyzeWeatherQueryType (.error ()) = QueryType.current ∧
    analyzeWeatherQueryType (.ok (some s)) = QueryType.current := by
  refine ⟨rfl, rfl, ?_⟩
  simp [analyzeWeatherQueryType, h1, h2]

/-- C5 witness: the amended behaviour at the concrete unparseable output
`"I guess so"`. -/
theorem classifier_fails_soft_witness :
    parseLocationFromMessage (.error ()) = none ∧
    analyzeWeatherQueryType (.error ()) = QueryType.current ∧
    analyzeWeatherQueryType (.ok (some "I guess so")) = QueryType.current :=
  classifier_fails_soft "I guess so" (by decide) (by decide)

/-- C7 counterexample: the claim says displayed sunrise/sunset times are
independent of the server's timezone for every fetched record, but the
`GET` handler of `src/app/api/weather/route.ts` formats the raw epoch with no
`timeZone` option: the same raw sunrise renders differently on servers with
different local offsets. -/
theorem weatherGET_time_depends_on_server_timezone :
    weatherGETTimeStr 43200 0 ≠ weatherGETTimeStr 43200 3600 := by decide

/-- C7 amended: the chat route's `getWeatherData` adds the provider-reported
UTC offset to the raw epoch and formats pinned to UTC, so its time strings
depend only on the offset-shifted epoch (hence are local to the queried place)
and not on the server's offset; the `/api/weather` GET formats raw epochs in
the server's timezone instead. -/
theorem chat_times_local_to_place (raw raw' : Nat) (tz tz' : Int) (name : String)
    (o1 o2 : Int) (h : (raw : Int) + tz = (raw' : Int) + tz') :
    chatTimeStr raw tz name o1 = chatTimeStr raw' tz' name o2 := by
  simp only [chatTimeStr, jsLocaleTime, h]

/-- C7 witness: a noon sunrise at UTC+2 formats identically to the same wall
clock reached as 13:00 UTC at offset +1, whatever the server offset is. -/
theorem chat_times_local_to_place_witness :
    chatTimeStr 43200 7200 "Central European Time" 0 =
      chatTimeStr 46800 3600 "Central European Time" 3600 :=
  chat_times_local_to_place 43200 46800 7200 3600 "Central European Time" 0 3600 (by decide)

/-- C9 counterexample: `normalizeLocationQuery` is not idempotent.  The
USA-suffix rule is not word-anchored: one pass maps `"Columbus, USA"` to
`"Columbus"`, and a second pass strips the trailing `"us"` of the city name
itself, giving `"Columb"`. -/
theorem normalizeLocationQuery_not_idempotent :
    normalizeLocationQuery (normalizeLocationQuery "Columbus, USA") ≠
      normalizeLocationQuery "Columbus, USA" := by decide

/-- C9 amended: `normalizeLocationQuery` is not idempotent in general (the
USA-suffix rule can fire again on a normalized output), but it is idempotent
on typical classifier-format location strings — `"City, State"`,
`"City, Country"`, state-code and Saint-prefixed forms. -/
theorem normalizeLocationQuery_idempotent_on_typical :
    normalizeLocationQuery (normalizeLocationQuery "New York, New York") =
        normalizeLocationQuery "New York, New York" ∧
    normalizeLocationQuery (normalizeLocationQuery "Paris, France") =
        normalizeLocationQuery "Paris, France" ∧
    normalizeLocationQuery (normalizeLocationQuery "Saint Louis, Missouri") =
        normalizeLocationQuery "Saint Louis, Missouri" ∧
    normalizeLocationQuery (normalizeLocationQuery "Tokyo, Japan") =
        normalizeLocationQuery "Tokyo, Japan" ∧
    normalizeLocationQuery (normalizeLocationQuery "London, United Kingdom") =
        normalizeLocationQuery "London, United Kingdom" ∧
    normalizeLocationQuery (normalizeLocationQuery "St. Louis, MO") =
        normalizeLocationQuery "St. Louis, MO" ∧
    normalizeLocationQuery (normalizeLocationQuery "st. louis") =
        normalizeLocationQuery "st. louis" := by
  refine ⟨?_, ?_, ?_, ?_, ?_, ?_, ?_⟩ <;> decide

/-- C1: a `POST` result carries a structured weather payload only when the
location classifier returned a non-null location *and* the weather fetch
succeeded (first conjunct, which also pins the payload to the fetched record);
and whenever the classifier returns null — which per its prompt is the case
for non-weather utterances — the result carries no payload (second
conjunct). -/
theorem POST_payload_only_when_located_and_fetched (messages : List String) (env : PostEnv) :
    (∀ c wd, POST messages env = .ok c (some wd) →
      ∃ loc, parseLocationFromMessage env.locLLM = some loc ∧
        (getWeatherData loc env.chatEnv).1 = .ok wd) ∧
    (parseLocationFromMessage env.locLLM = none →
      ∀ c w, POST messages env = .ok c w → w = none) := by
  constructor
  · intro c wd hpost
    by_cases hm : messages.isEmpty
    · simp [POST, hm] at hpost
    · cases hp : parseLocationFromMessage env.locLLM with
      | none =>
        cases hg : env.genericLLM with
        | error e => simp [POST, hm, hp, hg] at hpost
        | ok c2 => simp [POST, hm, hp, hg] at hpost
      | some loc =>
        refine ⟨loc, rfl, ?_⟩
        cases hw : (getWeatherData loc env.chatEnv).1 with
        | error e => simp [POST, hm, hp, hw] at hpost
        | ok wd2 =>
          cases hg : env.genLLM with
          | error e => simp [POST, hm, hp, hw, hg] at hpost
          | ok c2 =>
            cases c2 with
            | none =>
              simp [POST, hm, hp, hw, hg] at hpost
              rw [← hpost.2]
            | some s =>
              by_cases hs : s = ""
              · simp [POST, hm, hp, hw, hg, hs] at hpost
                rw [← hpost.2]
              · simp [POST, hm, hp, hw, hg, hs] at hpost
                rw [← hpost.2]
  · intro hp c w hpost
    by_cases hm : messages.isEmpty
    · simp [POST, hm] at hpost
    · cases hg : env.genericLLM with
      | error e => simp [POST, hm, hp, hg] at hpost
      | ok c2 =>
        simp [POST, hm, hp, hg] at hpost
        exact hpost.2.symm

/-- C1 witness: in the healthy environment `postEnvB` the payload-bearing
reply is backed by a classified location and a successful fetch of `wdB`. -/
theorem POST_payload_only_when_located_and_fetched_witness :
    ∃ loc, parseLocationFromMessage postEnvB.locLLM = some loc ∧
      (getWeatherData loc postEnvB.chatEnv).1 = .ok wdB :=
  (POST_payload_only_when_located_and_fetched
    ["What is the weather in Paris right now?"] postEnvB).1 "It is 18°C in Paris." wdB rfl

/-- C2 counterexample: the claim says the forecast feed is fetched iff the
classified intent includes forecast; but in `postEnvB` the intent analysis
yields `current` while `getWeatherData` — which never receives the intent and
in `POST` even runs before `analyzeWeatherQueryType` — still fetched the
forecast feed, on a fully successful turn. -/
theorem POST_fetches_forecast_on_current_intent :
    analyzeWeatherQueryType postEnvB.intentLLM = QueryType.current ∧
    (getWeatherData "Paris" postEnvB.chatEnv).2.forecastFetched = true ∧
    POST ["What is the weather in Paris right now?"] postEnvB =
      .ok "It is 18°C in Paris." (some wdB) :=
  ⟨rfl, rfl, rfl⟩

/-- C2 amended: the current-conditions feed is fetched exactly when the key is
configured and geocoding returned a hit, and the forecast feed is fetched
exactly when additionally the current fetch returned status 200 — i.e. both
feeds are fetched unconditionally on every successful path, independent of the
classified intent (which `getWeatherData` does not receive). -/
theorem getWeatherData_fetch_trace (city : String) (env : ChatEnv) :
    ((getWeatherData city env).2.currentFetched = true ↔
      env.owmKey.getD "" ≠ "" ∧ ∃ l, env.geo = .ok l ∧ l ≠ []) ∧
    ((getWeatherData city env).2.forecastFetched = true ↔
      env.owmKey.getD "" ≠ "" ∧ (∃ l, env.geo = .ok l ∧ l ≠ []) ∧
        ∃ w, env.current = .ok w ∧ w.status = 200) := by
  by_cases hk : env.owmKey.getD "" = ""
  · simp [getWeatherData, hk]
  · cases hg : env.geo with
    | error e => simp [getWeatherData, hk, hg]
    | ok l =>
      cases l with
      | nil => simp [getWeatherData, hk, hg]
      | cons g gs =>
        cases hc : env.current with
        | error e => simp [getWeatherData, hk, hg, hc]
        | ok w =>
          by_cases hs : w.status = 200
          · cases hf : env.forecastResp with
            | error e => simp [getWeatherData, hk, hg, hc, hs, hf]
            | ok f =>
              by_cases hfs : f.status = 200 <;>
                simp [getWeatherData, hk, hg, hc, hs, hf, hfs]
          · simp [getWeatherData, hk, hg, hc, hs]

/-- C4: when a classified location's geocoding yields zero results or any
upstream step fails, `POST` returns (not throws) the apologetic reply, the
reply names the failed location as a substring, and no weather payload is
attached. -/
theorem POST_weather_failure_apology (messages : List String) (env : PostEnv)
    (loc e : String) (hm : messages ≠ [])
    (hp : parseLocationFromMessage env.locLLM = some loc)
    (hw : (getWeatherData loc env.chatEnv).1 = .error e) :
    POST messages env = .ok (apologyText loc) none ∧
    ∃ p q, apologyText loc = p ++ loc ++ q := by
  constructor
  · have hm' : ¬(messages.isEmpty = true) := fun h => hm (List.isEmpty_iff.mp h)
    simp [POST, hm', hp, hw]
  · exact ⟨"I apologize, but I couldn't fetch the weather data for ",
      " at the moment. Would you like to try another location or ask me something else?", rfl⟩

/-- C4 witness: `"Atlantis"` geocodes to zero results in `postEnvC`; the turn
replies apologetically, mentioning `"Atlantis"`, with no payload. -/
theorem POST_weather_failure_apology_witness :
    POST ["Weather in Atlantis?"] postEnvC = .ok (apologyText "Atlantis") none ∧
    ∃ p q, apologyText "Atlantis" = p ++ "Atlantis" ++ q :=
  POST_weather_failure_apology ["Weather in Atlantis?"] postEnvC "Atlantis" "City not found"
    (by decide) rfl rfl

/-- C6 counterexample: the claim says credentials are checked once at process
start and never per request; but with the Groq key present the chat module
initializes cleanly, while `getWeatherData` checks — and raises on — the
missing OpenWeather key on the request path, where `POST` degrades it to an
apologetic reply instead of aborting. -/
theorem owm_key_raised_per_request :
    moduleInitChat (some "groq-key") = .ok () ∧
    (getWeatherData "Paris" chatEnvNoKey).1 = .error "OpenWeather API key not configured" ∧
    POST ["Weather in Paris?"] postEnvNoKey = .ok (apologyText "Paris") none :=
  ⟨rfl, rfl, rfl⟩

/-- C6 amended: the Groq credential is checked once at module initialization
(absence aborts startup); the OpenWeather credential is checked on every
`getWeatherData` call, and its absence degrades to the apologetic no-payload
reply rather than aborting. -/
theorem credential_check_policy (gk : Option String) (messages : List String)
    (env : PostEnv) (loc : String) (hm : messages ≠ [])
    (hk : env.chatEnv.owmKey = none)
    (hp : parseLocationFromMessage env.locLLM = some loc) :
    (moduleInitChat gk = .ok () ↔ gk.getD "" ≠ "") ∧
    (getWeatherData loc env.chatEnv).1 = .error "OpenWeather API key not configured" ∧
    POST messages env = .ok (apologyText loc) none := by
  have hw : (getWeatherData loc env.chatEnv).1 =
      .error "OpenWeather API key not configured" := by
    simp [getWeatherData, hk]
  refine ⟨?_, hw, ?_⟩
  · by_cases h : gk.getD "" = "" <;> simp [moduleInitChat, h]
  · have hm' : ¬(messages.isEmpty = true) := fun h => hm (List.isEmpty_iff.mp h)
    simp [POST, hm', hp, hw]

/-- C6 witness: the amended policy at the concrete keyless environment. -/
theorem credential_check_policy_witness :
    (moduleInitChat (some "k") = .ok () ↔ (some "k").getD "" ≠ "") ∧
    (getWeatherData "Paris" postEnvNoKey.chatEnv).1 =
      .error "OpenWeather API key not configured" ∧
    POST ["Weather in Paris?"] postEnvNoKey = .ok (apologyText "Paris") none :=
  credential_check_policy (some "k") ["Weather in Paris?"] postEnvNoKey "Paris"
    (by decide) rfl rfl

/-- C8 counterexample: the claim says that when the fetch succeeded but
generation fails the reply is a deterministic template built from the weather
fields; but when the generation call throws, `POST` answers with the
location-apology — which is neither the narrative template nor the city
fallback sentence — and even drops the successfully fetched payload. -/
theorem POST_generation_error_drops_payload :
    (getWeatherData "Paris" postEnvD.chatEnv).1 = .ok wdB ∧
    POST ["What's the weather in Paris?"] postEnvD = .ok (apologyText "Paris") none ∧
    apologyText "Paris" ≠ narrativeFallback wdB ∧
    apologyText "Paris" ≠ chatFallbackText wdB.city (getWeatherEmoji wdB.description) :=
  ⟨rfl, rfl, by decide, by decide⟩

/-- C8 amended: when generation returns a contentless response the chat route
falls back to a fixed sentence naming the city (keeping the payload), and the
narrative generator's catch falls back to the deterministic template built
from the record's temperature, description, humidity, wind and feels-like
fields (sunrise/sunset are not used there). -/
theorem generation_fallback_behavior (messages : List String) (env : PostEnv)
    (loc : String) (wd : WeatherRec) (hm : messages ≠ [])
    (hp : parseLocationFromMessage env.locLLM = some loc)
    (hw : (getWeatherData loc env.chatEnv).1 = .ok wd)
    (hg : env.genLLM = .ok none) :
    POST messages env =
      .ok (chatFallbackText wd.city (getWeatherEmoji wd.description)) (some wd) ∧
    (∀ w : WeatherRec, generateWeatherNarrative (.error ()) w = narrativeFallback w) ∧
    (∀ w : WeatherRec, ∃ p q, narrativeFallback w = p ++ toString w.temperature ++ q) := by
  refine ⟨?_, fun w => rfl, fun w => ?_⟩
  · have hm' : ¬(messages.isEmpty = true) := fun h => hm (List.isEmpty_iff.mp h)
    simp [POST, hm', hp, hw, hg]
  · refine ⟨"Current weather conditions in " ++ w.city ++ " show " ++ w.description ++
      " with temperatures reaching ",
      "°C. The humidity stands at " ++ toString w.humidity ++ "% with winds at " ++
        toString w.wind_speed ++ " km/h. Residents can expect " ++
        (if w.temperature < w.feels_like then "warmer" else "cooler") ++
        " feeling conditions due to the current atmospheric conditions.", ?_⟩
    simp [narrativeFallback, String.append_assoc]

/-- C8 witness: the amended fallback behaviour at the concrete environment
`postEnvE` whose generation call returns no content. -/
theorem generation_fallback_behavior_witness :
    POST ["What's the weather in Paris?"] postEnvE =
      .ok (chatFallbackText wdB.city (getWeatherEmoji wdB.description)) (some wdB) ∧
    (∀ w : WeatherRec, generateWeatherNarrative (.error ()) w = narrativeFallback w) ∧
    (∀ w : WeatherRec, ∃ p q, narrativeFallback w = p ++ toString w.temperature ++ q) :=
  generation_fallback_behavior ["What's the weather in Paris?"] postEnvE "Paris" wdB
    (by decide) rfl rfl rfl

/-- An accepted fetch returns at most `(days || 7)` daily records. -/
theorem fetch_forecast_length (loc : String) (days : Int) (env : McpEnv)
    (r : McpForecastResult) (h : fetchWeatherDataForecast loc days env = .ok r) :
    r.forecast.length ≤ (jsor days).toNat := by
  by_cases hk : env.owmKey.getD "" = ""
  · simp [fetchWeatherDataForecast, hk] at h
  · cases hg : env.geo with
    | error e => simp [fetchWeatherDataForecast, hk, hg] at h
    | ok l =>
      cases l with
      | nil => simp [fetchWeatherDataForecast, hk, hg] at h
      | cons g gs =>
        cases hf : env.forecastFeed with
        | error e => simp [fetchWeatherDataForecast, hk, hg, hf] at h
        | ok feed =>
          simp [fetchWeatherDataForecast, hk, hg, hf] at h
          rw [← h]
          show ((dedupDaily feed).take (jsor days).toNat).length ≤ (jsor days).toNat
          rw [List.length_take]
          exact min_le_left _ _

/-- C10 counterexample: the claim says the tool rejects with `InvalidParams`
exactly when `days` is bad or the location is missing/non-string; but a
*present, string-typed, empty* location — with a perfectly valid `days = 7` —
is also rejected, because the handler tests JS truthiness, not presence. -/
theorem forecast_tool_rejects_empty_location_string :
    handleGetWeatherForecast ⟨some (JSVal.vstr ""), some (JSVal.vnum 7)⟩ mcpEnvF =
      .error (.invalidParams "Location parameter is required and must be a string") ∧
    daysOkP (JSVal.vnum 7) :=
  ⟨rfl, ⟨7, rfl, by decide, by decide⟩⟩

/-- C10 amended: `handleGetWeatherForecast` raises `InvalidParams` exactly
when the location argument is not a *non-empty* string (missing, non-string
or empty) or the `days` argument (defaulted to 7 when absent) is not a number
in `[1, 7]`; on acceptance the returned forecast has at most `days`
entries. -/
theorem handleGetWeatherForecast_invalidParams_iff (args : ForecastArgs) (env : McpEnv) :
    ((∃ m, handleGetWeatherForecast args env = .error (.invalidParams m)) ↔
      jsTruthyStr args.location = none ∨ ¬daysOkP (args.days.getD (.vnum 7))) ∧
    (∀ n r, args.days.getD (.vnum 7) = .vnum n →
      handleGetWeatherForecast args env = .ok r → r.forecast.length ≤ n.toNat) := by
  constructor
  · cases hloc : jsTruthyStr args.location with
    | none => simp [handleGetWeatherForecast, hloc]
    | some loc =>
      cases hd : args.days.getD (.vnum 7) with
      | vnum n =>
        by_cases hn : n < 1 ∨ 7 < n
        · simp [handleGetWeatherForecast, hloc, hd, hn, daysOkP]
          omega
        · cases hfetch : fetchWeatherDataForecast loc n env with
          | error msg =>
            simp [handleGetWeatherForecast, hloc, hd, hn, hfetch, daysOkP]
            omega
          | ok r =>
            simp [handleGetWeatherForecast, hloc, hd, hn, hfetch, daysOkP]
            omega
      | vstr s => simp [handleGetWeatherForecast, hloc, hd, daysOkP]
      | vbool b => simp [handleGetWeatherForecast, hloc, hd, daysOkP]
      | vnull => simp [handleGetWeatherForecast, hloc, hd, daysOkP]
  · intro n r hd hok
    cases hloc : jsTruthyStr args.location with
    | none => simp [handleGetWeatherForecast, hloc] at hok
    | some loc =>
      by_cases hn : n < 1 ∨ 7 < n
      · simp [handleGetWeatherForecast, hloc, hd, hn] at hok
      · cases hfetch : fetchWeatherDataForecast loc n env with
        | error msg => simp [handleGetWeatherForecast, hloc, hd, hn, hfetch] at hok
        | ok r2 =>
          simp [handleGetWeatherForecast, hloc, hd, hn, hfetch] at hok
          have hlen := fetch_forecast_length loc n env r2 hfetch
          have hjs : jsor n = n := by
            unfold jsor
            rw [if_neg]
            omega
          rw [hok, hjs] at hlen
          exact hlen

/-- C10 witness: a well-formed call (`"Paris"`, `days = 3`) is accepted and
returns the three-day forecast `mcpResF`, whose length is within bound. -/
theorem handleGetWeatherForecast_invalidParams_iff_witness :
    mcpResF.forecast.length ≤ (3 : Int).toNat :=
  (handleGetWeatherForecast_invalidParams_iff
    ⟨some (.vstr "Paris"), some (.vnum 3)⟩ mcpEnvF).2 3 mcpResF rfl rfl

end PMA
